import Mathlib

/-!
Verification development for the fumadocs content-source pipeline.

The embedding models:
  - the environment validation schema (zod `envSchema` / `validateEnv`),
  - the remote GitHub acquisition routine (`getGitHubFiles`), including
    rate-limit header parsing (`parseRateLimitHeaders`), rate-limit logging
    (`logRateLimitInfo`) and the error taxonomy (`GitHubError`),
  - the local acquisition routine (`getLocalFiles`),
  - the mode dispatcher (`getFiles`).

External effects (HTTP fetches, the gray-matter front-matter parser, the
JSON parser, the file glob) are modelled as inputs: a `GitHubWorld` /
`LocalWorld` record supplies, for each path or content string, the response
the external system would give. Logging is modelled by returning the list
of emitted log lines; issued HTTP requests are returned as a list of URLs
so that claims about "no request issued" are statable.
-/

set_option autoImplicit false

namespace Fumadocs

/-! ## JavaScript-semantics helpers -/

/-- Truthiness of a `string | null | undefined` value in JavaScript:
`null`, `undefined` and the empty string are falsy. This models the
`!value` tests in the source. -/
def jsFalsy : Option String → Bool
  | none => true
  | some s => s.isEmpty

/-- Prefix test on strings through their character lists (the character
lists make every operation structurally recursive, hence computable by
the kernel). Models both JavaScript `startsWith` and prefix testing. -/
def jsStartsWith (s pre : String) : Bool :=
  pre.data.isPrefixOf s.data

/-- Whitespace characters trimmed by JavaScript `trim` (the common ones;
rate-limit header values contain none). -/
def isWs (c : Char) : Bool :=
  c = ' ' || c = '\t' || c = '\n' || c = '\r'

/-- Trim leading and trailing whitespace of a character list. -/
def jsTrim (s : String) : List Char :=
  ((s.data.dropWhile isWs).reverse.dropWhile isWs).reverse

/-- Value of a decimal digit list, most significant first. -/
def digitsVal (ds : List Char) : Nat :=
  ds.foldl (fun acc c => acc * 10 + (c.toNat - 48)) 0

/-- JavaScript `parseInt` on a string: after trimming, an optional sign
followed by leading decimal digits; `none` models the `NaN` result when
no digits are found. Trailing non-digit characters are ignored, as in
JavaScript. -/
def parseIntJS (s : String) : Option Int :=
  let t := jsTrim s
  let signed : Bool × List Char :=
    match t with
    | '-' :: cs => (true, cs)
    | '+' :: cs => (false, cs)
    | cs => (false, cs)
  let digits := signed.2.takeWhile Char.isDigit
  if digits.isEmpty then none
  else some (if signed.1 then -(digitsVal digits : Int) else (digitsVal digits : Int))

/-- Split a character list on a separator character; models `splitOn`
with a one-character separator. -/
def splitChar (c : Char) : List Char → List (List Char)
  | [] => [[]]
  | x :: xs =>
    let r := splitChar c xs
    if x = c then [] :: r
    else
      match r with
      | [] => [[x]]
      | y :: ys => (x :: y) :: ys

/-- Node `path.extname`: the final dot-suffix of the last path segment;
empty for a dotless basename and for a leading-dot basename such as
a dotfile. -/
def extname (p : String) : String :=
  let base := (splitChar '/' p.data).getLastD []
  let parts := splitChar '.' base
  if parts.length ≤ 1 then ""
  else if parts.length = 2 && parts.getD 0 [] = [] then ""
  else String.mk ('.' :: parts.getLastD [])

/-- Node `path.join` for the only shape the source uses: the second
component either already starts with a separator or is glued with one. -/
def pathJoin (a b : String) : String :=
  if jsStartsWith b "/" then a ++ b else a ++ "/" ++ b

/-- Node `path.relative` for the shape the source uses: when the target
lies strictly below the base directory the base prefix is stripped;
when the target equals the base the result is empty. Other shapes
(which would produce dot-dot segments) return the target unchanged;
no claim depends on them. -/
def relativePath (base p : String) : String :=
  if p = base then ""
  else if jsStartsWith p (base ++ "/") then String.mk (p.data.drop (base.data.length + 1))
  else p

/-! ## JSON-like values and JavaScript object update -/

/-- A JSON-like value: front-matter fields and parsed JSON metadata.
Objects are insertion-ordered lists of key/value fields, as in
JavaScript. -/
inductive Value where
  | str (s : String)
  | num (n : Int)
  | bool (b : Bool)
  | null
  | arr (elems : List Value)
  | obj (fields : List (String × Value))

/-- JavaScript object spread followed by a literal field, as in the
source expression for page data: if the key already exists its value is
replaced in place, otherwise the field is appended. -/
def setKey (o : List (String × Value)) (k : String) (v : Value) :
    List (String × Value) :=
  if o.any (fun p => p.1 = k) then
    o.map (fun p => if p.1 = k then (k, v) else p)
  else o ++ [(k, v)]

/-- Lookup of a key in an object value (first matching field; keys of a
JavaScript object are unique). -/
def objGet (o : List (String × Value)) (k : String) : Option Value :=
  (o.find? (fun p => p.1 = k)).map Prod.snd

/-- Lookup of a key inside a `Value` that is an object. -/
def vGet (v : Value) (k : String) : Option Value :=
  match v with
  | .obj fields => objGet fields k
  | _ => none

/-! ## Data model from source.ts -/

/-- The tag of a virtual file: page documents or metadata documents. -/
inductive VFileType where
  | page
  | meta
  deriving DecidableEq

/-- A virtual file handed to the documentation loader. -/
structure VirtualFile where
  type : VFileType
  path : String
  data : Value

/-- The `type` field of a GitHub tree entry. -/
inductive GitObjectType where
  | blob
  | tree
  | commit
  deriving DecidableEq

/-- One entry of the recursive tree listing (`GitHubTreeItem`). -/
structure GitHubTreeItem where
  path : String
  mode : String
  type : GitObjectType
  sha : String
  size : Option Nat
  url : String
  deriving DecidableEq

/-- The four rate-limit response headers, each possibly absent. -/
structure RateHeaders where
  limit : Option String
  remaining : Option String
  reset : Option String
  used : Option String
  deriving DecidableEq

/-- Parsed rate-limit snapshot (`GitHubRateLimitInfo`). Each numeric field
is `parseInt` output, where `none` models `NaN`; `reset` is the epoch
time in milliseconds fed to the `Date` constructor, `none` modelling an
invalid date. -/
structure GitHubRateLimitInfo where
  limit : Option Int
  remaining : Option Int
  reset : Option Int
  used : Option Int
  deriving DecidableEq

/-- The error taxonomy of the remote acquisition routine:
`configMissing` is the plain configuration-missing error thrown before the
request loop, `rateLimit` is `GitHubRateLimitError` (it carries the quota
snapshot, whose `reset` field is the reset time), and `api` is the generic
`GitHubApiError` carrying the HTTP status code. -/
inductive GitHubError where
  | configMissing
  | rateLimit (info : GitHubRateLimitInfo)
  | api (statusCode : Nat)
  deriving DecidableEq

/-- Validated mode (`NODE_ENV` after schema validation). -/
inductive Mode where
  | development
  | production
  deriving DecidableEq

/-- The validated configuration object produced by `validateEnv`. -/
structure Env where
  NODE_ENV : Mode
  GITHUB_OWNER : Option String
  GITHUB_REPO : Option String
  GITHUB_CONTENT_PATH : String
  GITHUB_CONTENT_BRANCH : String
  GITHUB_TOKEN : Option String
  deriving DecidableEq

/-! ## Rate-limit header parsing and logging -/

/-- Model of `parseRateLimitHeaders`: reads the four rate-limit headers; if any
is absent or empty (falsy) the result is `none`, otherwise each is parsed
with `parseInt` and the reset epoch is scaled to milliseconds for the
`Date` constructor. -/
def parseRateLimitHeaders (headers : RateHeaders) : Option GitHubRateLimitInfo :=
  if jsFalsy headers.limit || jsFalsy headers.remaining ||
      jsFalsy headers.reset || jsFalsy headers.used then
    none
  else
    some {
      limit := parseIntJS (headers.limit.getD "")
      remaining := parseIntJS (headers.remaining.getD "")
      reset := (parseIntJS (headers.reset.getD "")).map (· * 1000)
      used := parseIntJS (headers.used.getD "") }

/-- Render an optional integer for a log line. -/
def showOptInt : Option Int → String
  | none => "NaN"
  | some n => toString n

/-- Model of `logRateLimitInfo`: returns the emitted console lines. With no
snapshot it reports that no information is available; otherwise it prints
a summary (the floating-point usage percentage and locale date formatting
of the original line are not modelled; no claim depends on them). -/
def logRateLimitInfo (rateLimitInfo : Option GitHubRateLimitInfo) : List String :=
  match rateLimitInfo with
  | none => ["No rate limit information available"]
  | some ri =>
      ["GitHub API Rate Limit Info: used " ++ showOptInt ri.used ++ "/" ++
        showOptInt ri.limit ++ ", remaining " ++ showOptInt ri.remaining ++
        ", resets at " ++ showOptInt ri.reset]

/-! ## Remote acquisition -/

/-- The tree-listing HTTP response (`fetch` of the trees endpoint),
already decoded: success flag, status code, status text, rate-limit
headers, and the `tree` array of the JSON body. -/
structure TreeResponse where
  ok : Bool
  status : Nat
  statusText : String
  headers : RateHeaders
  tree : List GitHubTreeItem

/-- The external world of the remote acquisition routine: the tree
response, the per-file raw-content responses (keyed by the tree item
path from which the raw URL is built), and the external parsers
(gray-matter front-matter data and body, `JSON.parse` where `none`
models a thrown parse error). -/
structure GitHubWorld where
  treeResponse : TreeResponse
  fileOk : String → Bool
  fileContent : String → String
  matterData : String → List (String × Value)
  matterContent : String → String
  jsonParse : String → Option Value

/-- The tree-listing API URL. -/
def treeUrl (env : Env) : String :=
  "https://api.github.com/repos/" ++ env.GITHUB_OWNER.getD "" ++ "/" ++
    env.GITHUB_REPO.getD "" ++ "/git/trees/" ++ env.GITHUB_CONTENT_BRANCH ++
    "?recursive=1"

/-- The raw-content URL for one file. -/
def rawUrl (env : Env) (p : String) : String :=
  "https://raw.githubusercontent.com/" ++ env.GITHUB_OWNER.getD "" ++ "/" ++
    env.GITHUB_REPO.getD "" ++ "/" ++ env.GITHUB_CONTENT_BRANCH ++ "/" ++ p

/-- The tree filter of the source: keep entries whose type is `blob` and
whose path starts with the configured content path. -/
def contentFilesOf (env : Env) (tree : List GitHubTreeItem) : List GitHubTreeItem :=
  tree.filter (fun item =>
    item.type == GitObjectType.blob &&
    jsStartsWith item.path env.GITHUB_CONTENT_PATH)

/-- The body of the per-file async closure mapped over the content files:
a failed fetch logs and fulfils with `null`; a fetched `.md`/`.mdx` file
becomes a page whose data spreads the front-matter fields and then sets
the `content` field to the body; a fetched `.json` file becomes a meta
file when it parses, and a thrown parse error rejects the promise
(`Except.error`); any other extension fulfils with `null`. Returns the
settled outcome together with the log lines the closure emitted. -/
def githubFileStep (env : Env) (w : GitHubWorld) (file : GitHubTreeItem) :
    Except Unit (Option VirtualFile) × List String :=
  if w.fileOk file.path = false then
    (Except.ok none, ["Failed to fetch file: " ++ file.path])
  else
    let content := w.fileContent file.path
    let ext := extname file.path
    let virtualPath := relativePath env.GITHUB_CONTENT_PATH file.path
    if ext = ".mdx" ∨ ext = ".md" then
      (Except.ok (some {
        type := VFileType.page
        path := virtualPath
        data := Value.obj (setKey (w.matterData content) "content"
          (Value.str (w.matterContent content))) }), [])
    else if ext = ".json" then
      match w.jsonParse content with
      | some v => (Except.ok (some {
          type := VFileType.meta
          path := virtualPath
          data := v }), [])
      | none => (Except.error (), [])
    else (Except.ok none, [])

/-- Extract the value of one settled per-file result, as the source does:
keep only fulfilled results, take their values and drop nulls. -/
def settledValue (s : Except Unit (Option VirtualFile) × List String) :
    Option VirtualFile :=
  match s.1 with
  | Except.ok v => v
  | Except.error _ => none

/-- Model of `getGitHubFiles`, returning the result, the console log and the list
of issued HTTP request URLs. The configuration check precedes the `try`
block and the first request; on a non-success tree response the
rate-limit error is raised when a parsed snapshot shows zero remaining,
otherwise the generic API error carries the status; on success the
filtered content files are each fetched and classified, per-file failures
being isolated. The final `catch` logs fatal errors before re-raising. -/
def getGitHubFiles (env : Env) (w : GitHubWorld) :
    Except GitHubError (List VirtualFile) × List String × List String :=
  if jsFalsy env.GITHUB_OWNER || jsFalsy env.GITHUB_REPO then
    (Except.error GitHubError.configMissing, [], [])
  else
    let response := w.treeResponse
    let rateLimitInfo := parseRateLimitHeaders response.headers
    let log0 := logRateLimitInfo rateLimitInfo
    if response.ok = false then
      match rateLimitInfo with
      | some ri =>
        if ri.remaining = some 0 then
          (Except.error (GitHubError.rateLimit ri),
            log0 ++ ["Rate limit exceeded. Reset at " ++ showOptInt ri.reset],
            [treeUrl env])
        else
          (Except.error (GitHubError.api response.status),
            log0 ++ ["GitHub API error (" ++ toString response.status ++ "): " ++
              response.statusText],
            [treeUrl env])
      | none =>
        (Except.error (GitHubError.api response.status),
          log0 ++ ["GitHub API error (" ++ toString response.status ++ "): " ++
            response.statusText],
          [treeUrl env])
    else
      let contentFiles := contentFilesOf env response.tree
      let steps := contentFiles.map (githubFileStep env w)
      let virtualFiles := steps.filterMap settledValue
      (Except.ok virtualFiles,
        log0 ++ (steps.map Prod.snd).flatten,
        treeUrl env :: contentFiles.map (fun f => rawUrl env f.path))

/-! ## Local acquisition -/

/-- The external world of the local acquisition routine: the eagerly
globbed files (absolute-style glob path and raw content), the working
directory, and the external parsers as in `GitHubWorld`. -/
structure LocalWorld where
  files : List (String × String)
  cwd : String
  matterData : String → List (String × Value)
  matterContent : String → String
  jsonParse : String → Option Value

/-- The body of the flatMap callback of `getLocalFiles` for one globbed
entry: `.md`/`.mdx` parse front-matter and produce a page with the body
under the `content` key, `.json` parses (a thrown parse error propagates
as `Except.error` and aborts the whole enumeration), any other extension
contributes nothing. The virtual path is the glob path joined to the
working directory, made relative to the content root (the relative base
resolves against the working directory). -/
def localEntry (w : LocalWorld) (file content : String) :
    Except Unit (List VirtualFile) :=
  let ext := extname file
  let virtualPath :=
    relativePath (pathJoin w.cwd "content/docs") (pathJoin w.cwd file)
  if ext = ".mdx" ∨ ext = ".md" then
    Except.ok [{
      type := VFileType.page
      path := virtualPath
      data := Value.obj (setKey (w.matterData content) "content"
        (Value.str (w.matterContent content))) }]
  else if ext = ".json" then
    match w.jsonParse content with
    | some v => Except.ok [{ type := VFileType.meta, path := virtualPath, data := v }]
    | none => Except.error ()
  else Except.ok []

/-- The flatMap over the globbed entries, short-circuiting on a thrown
per-file parse error (local parse failures are fatal). -/
def getLocalFilesAux (w : LocalWorld) :
    List (String × String) → Except Unit (List VirtualFile)
  | [] => Except.ok []
  | (file, content) :: rest =>
    match localEntry w file content with
    | Except.error e => Except.error e
    | Except.ok vs =>
      match getLocalFilesAux w rest with
      | Except.error e => Except.error e
      | Except.ok tail => Except.ok (vs ++ tail)

/-- Model of `getLocalFiles`: enumerate the globbed files and classify each. -/
def getLocalFiles (w : LocalWorld) : Except Unit (List VirtualFile) :=
  getLocalFilesAux w w.files

/-! ## Configuration resolver (zod envSchema and validateEnv) -/

/-- The raw environment mapping: each variable is a string or absent. -/
structure RawEnv where
  NODE_ENV : Option String
  GITHUB_OWNER : Option String
  GITHUB_REPO : Option String
  GITHUB_CONTENT_PATH : Option String
  GITHUB_CONTENT_BRANCH : Option String
  GITHUB_TOKEN : Option String
  deriving DecidableEq

/-- One zod issue: the offending path and its message. -/
structure Issue where
  path : String
  message : String
  deriving DecidableEq

/-- The two admissible `NODE_ENV` enum values. -/
def modeValid (v : String) : Bool :=
  v == "development" || v == "production"

/-- Issues of the base object schema: `NODE_ENV` is a required enum; all
other fields are optional strings and never fail on string inputs. -/
def baseIssues (r : RawEnv) : List Issue :=
  match r.NODE_ENV with
  | none => [{ path := "NODE_ENV", message := "Required" }]
  | some v =>
    if modeValid v then []
    else [{ path := "NODE_ENV",
            message := "Invalid enum value. Expected development | production, received " ++ v }]

/-- The content path after the zod default is applied: an absent variable
becomes `content/docs`. -/
def contentPathValue (r : RawEnv) : String :=
  r.GITHUB_CONTENT_PATH.getD "content/docs"

/-- The branch after the zod default is applied. -/
def branchValue (r : RawEnv) : String :=
  r.GITHUB_CONTENT_BRANCH.getD "main"

/-- The custom issue added for a falsy owner in production mode. -/
def ownerIssue : Issue :=
  { path := "GITHUB_OWNER", message := "GITHUB_OWNER is required in production mode." }

/-- The custom issue added for a falsy repository in production mode. -/
def repoIssue : Issue :=
  { path := "GITHUB_REPO", message := "GITHUB_REPO is required in production mode." }

/-- The custom issue added for a falsy content path in production mode.
Because of the default, this can only fire when the variable is set to
the empty string. -/
def contentPathIssue : Issue :=
  { path := "GITHUB_CONTENT_PATH", message := "GITHUB_CONTENT_PATH is required in production mode." }

/-- The issues added by the `superRefine` block (it runs only when the
base schema succeeded; its checks are guarded by production mode). The
falsiness tests mirror the `!data.X` tests of the source, and the content
path is tested after defaulting. -/
def refineIssues (r : RawEnv) : List Issue :=
  if r.NODE_ENV == some "production" then
    (if jsFalsy r.GITHUB_OWNER then [ownerIssue] else []) ++
    (if jsFalsy r.GITHUB_REPO then [repoIssue] else []) ++
    (if (contentPathValue r).isEmpty then [contentPathIssue] else [])
  else []

/-- The console warning emitted by the `superRefine` block when the token
is absent in production mode (non-fatal). -/
def refineWarnings (r : RawEnv) : List String :=
  if r.NODE_ENV == some "production" && jsFalsy r.GITHUB_TOKEN then
    ["GITHUB_TOKEN is not set. You may encounter rate limiting issues."]
  else []

/-- All issues of one `safeParse` run: base schema issues, and when the
base schema succeeded, the refinement issues. -/
def envIssues (r : RawEnv) : List Issue :=
  match baseIssues r with
  | [] => refineIssues r
  | issues => issues

/-- Model of `humanReadableZodError`: one line per issue, joined with newlines. -/
def humanReadableZodError (issues : List Issue) : String :=
  String.intercalate "\n" (issues.map (fun i => i.path ++ ": " ++ i.message))

/-- Model of `validateEnv`, returning the validated configuration or the error
message, together with the console log (warnings emitted during parsing,
then on failure the aggregated message written with `console.error`
before the error is thrown). -/
def validateEnv (r : RawEnv) : Except String Env × List String :=
  let issues := envIssues r
  let warns := refineWarnings r
  if issues.isEmpty then
    (Except.ok {
      NODE_ENV := if r.NODE_ENV == some "production" then Mode.production else Mode.development
      GITHUB_OWNER := r.GITHUB_OWNER
      GITHUB_REPO := r.GITHUB_REPO
      GITHUB_CONTENT_PATH := contentPathValue r
      GITHUB_CONTENT_BRANCH := branchValue r
      GITHUB_TOKEN := r.GITHUB_TOKEN }, warns)
  else
    let message := humanReadableZodError issues
    (Except.error message, warns ++ [message])

/-! ## Mode dispatcher -/

/-- Which acquisition path the dispatcher took. -/
inductive AcqPath where
  | localPath
  | remotePath
  deriving DecidableEq

/-- Unified error type of the dispatcher: a fatal local parse error, or a
GitHub acquisition error. -/
inductive LoadError where
  | localParse
  | github (e : GitHubError)
  deriving DecidableEq

/-- Model of `getFiles`: the single decision point. Development mode calls the
local acquisition; any other validated mode (production is the only one)
calls the remote acquisition. The second component records which path was
invoked. -/
def getFiles (env : Env) (lw : LocalWorld) (gw : GitHubWorld) :
    Except LoadError (List VirtualFile) × AcqPath :=
  if env.NODE_ENV = Mode.development then
    (match getLocalFiles lw with
      | Except.ok v => Except.ok v
      | Except.error _ => Except.error LoadError.localParse,
      AcqPath.localPath)
  else
    (match (getGitHubFiles env gw).1 with
      | Except.ok v => Except.ok v
      | Except.error e => Except.error (LoadError.github e),
      AcqPath.remotePath)

/-! ## Unfolding lemmas -/

/-- On a successful tree response with configuration present, the routine
returns the classified files, the rate-limit log followed by the per-file
logs, and the tree request followed by one raw request per content file. -/
theorem getGitHubFiles_ok_eq (env : Env) (w : GitHubWorld)
    (ho : jsFalsy env.GITHUB_OWNER = false) (hr : jsFalsy env.GITHUB_REPO = false)
    (hok : w.treeResponse.ok = true) :
    getGitHubFiles env w =
      (Except.ok (((contentFilesOf env w.treeResponse.tree).map
          (githubFileStep env w)).filterMap settledValue),
        logRateLimitInfo (parseRateLimitHeaders w.treeResponse.headers) ++
          (((contentFilesOf env w.treeResponse.tree).map
            (githubFileStep env w)).map Prod.snd).flatten,
        treeUrl env :: (contentFilesOf env w.treeResponse.tree).map
          (fun f => rawUrl env f.path)) := by
  simp [getGitHubFiles, ho, hr, hok]

/-- On a non-success tree response with configuration present, the routine
raises the rate-limit error exactly when a parsed snapshot shows zero
remaining, and the generic API error with the response status otherwise. -/
theorem getGitHubFiles_fail_eq (env : Env) (w : GitHubWorld)
    (ho : jsFalsy env.GITHUB_OWNER = false) (hr : jsFalsy env.GITHUB_REPO = false)
    (hok : w.treeResponse.ok = false) :
    (getGitHubFiles env w).1 =
      (match parseRateLimitHeaders w.treeResponse.headers with
        | some ri =>
          if ri.remaining = some 0 then Except.error (GitHubError.rateLimit ri)
          else Except.error (GitHubError.api w.treeResponse.status)
        | none => Except.error (GitHubError.api w.treeResponse.status)) := by
  cases hp : parseRateLimitHeaders w.treeResponse.headers with
  | none => simp [getGitHubFiles, ho, hr, hok, hp]
  | some ri =>
    by_cases hz : ri.remaining = some 0 <;>
      simp [getGitHubFiles, ho, hr, hok, hp, hz]

/-! ## Concrete configurations and worlds used by witnesses -/

/-- A production configuration with owner and repository present. -/
def envProd : Env :=
  { NODE_ENV := Mode.production, GITHUB_OWNER := some "octo",
    GITHUB_REPO := some "docs", GITHUB_CONTENT_PATH := "content/docs",
    GITHUB_CONTENT_BRANCH := "main", GITHUB_TOKEN := none }

/-- A world built around one tree response, with all file fetches
succeeding on empty content. -/
def mkWorld (tr : TreeResponse) : GitHubWorld :=
  { treeResponse := tr, fileOk := fun _ => true, fileContent := fun _ => "",
    matterData := fun _ => [], matterContent := fun _ => "",
    jsonParse := fun _ => none }

/-- A 403 tree response whose rate-limit headers show zero remaining. -/
def w403zero : GitHubWorld :=
  mkWorld
    { ok := false, status := 403, statusText := "Forbidden",
      headers := { limit := some "60", remaining := some "0",
                   reset := some "1700000000", used := some "60" },
      tree := [] }

/-- The snapshot parsed from the headers of `w403zero`. -/
def ri403zero : GitHubRateLimitInfo :=
  { limit := some 60, remaining := some 0, reset := some 1700000000000,
    used := some 60 }

/-- A 403 tree response whose rate-limit headers show five remaining. -/
def w403five : GitHubWorld :=
  mkWorld
    { ok := false, status := 403, statusText := "Forbidden",
      headers := { limit := some "60", remaining := some "5",
                   reset := some "1700000000", used := some "55" },
      tree := [] }

/-- The snapshot parsed from the headers of `w403five`. -/
def ri403five : GitHubRateLimitInfo :=
  { limit := some 60, remaining := some 5, reset := some 1700000000000,
    used := some 55 }

/-- A 500 tree response with no rate-limit headers. -/
def w500bare : GitHubWorld :=
  mkWorld
    { ok := false, status := 500, statusText := "Server Error",
      headers := { limit := none, remaining := none, reset := none, used := none },
      tree := [] }

/-! ## Claim C1 -/

/-- C1: for a tree-listing response with HTTP status 403 whose rate-limit
headers parse to a snapshot, remote acquisition raises the distinguished
rate-limit error carrying that snapshot (and thus its reset time) when the
snapshot shows zero remaining, and the generic API error carrying the
HTTP status 403 when the snapshot shows nonzero remaining. -/
theorem c1_forbidden_rate_limit_distinction (env : Env) (w : GitHubWorld)
    (ho : jsFalsy env.GITHUB_OWNER = false) (hr : jsFalsy env.GITHUB_REPO = false)
    (hok : w.treeResponse.ok = false) (hst : w.treeResponse.status = 403)
    (ri : GitHubRateLimitInfo)
    (hparse : parseRateLimitHeaders w.treeResponse.headers = some ri) :
    (ri.remaining = some 0 →
      (getGitHubFiles env w).1 = Except.error (GitHubError.rateLimit ri)) ∧
    (ri.remaining ≠ some 0 →
      (getGitHubFiles env w).1 = Except.error (GitHubError.api 403)) := by
  rw [getGitHubFiles_fail_eq env w ho hr hok, hparse, hst]
  constructor
  · intro hz
    simp [hz]
  · intro hz
    simp [hz]

/-- Witness for C1: with zero remaining the rate-limit error carrying the
snapshot is raised; with five remaining the generic 403 API error is
raised. -/
theorem c1_forbidden_rate_limit_distinction_witness :
    (getGitHubFiles envProd w403zero).1 =
      Except.error (GitHubError.rateLimit ri403zero) ∧
    (getGitHubFiles envProd w403five).1 =
      Except.error (GitHubError.api 403) :=
  ⟨(c1_forbidden_rate_limit_distinction envProd w403zero rfl rfl rfl rfl
      ri403zero (by decide)).1 (by decide),
    (c1_forbidden_rate_limit_distinction envProd w403five rfl rfl rfl rfl
      ri403five (by decide)).2 (by decide)⟩

/-! ## Claim C10 -/

/-- C10: for every non-successful tree-listing response of any status,
remote acquisition raises the rate-limit error exactly when the headers
parse to a snapshot showing zero remaining; in every other non-success
case, including absent headers, it raises the generic API error carrying
the response status. -/
theorem c10_nonsuccess_error_taxonomy (env : Env) (w : GitHubWorld)
    (ho : jsFalsy env.GITHUB_OWNER = false) (hr : jsFalsy env.GITHUB_REPO = false)
    (hok : w.treeResponse.ok = false) :
    (∀ ri, parseRateLimitHeaders w.treeResponse.headers = some ri →
      (ri.remaining = some 0 →
        (getGitHubFiles env w).1 = Except.error (GitHubError.rateLimit ri)) ∧
      (ri.remaining ≠ some 0 →
        (getGitHubFiles env w).1 =
          Except.error (GitHubError.api w.treeResponse.status))) ∧
    (parseRateLimitHeaders w.treeResponse.headers = none →
      (getGitHubFiles env w).1 =
        Except.error (GitHubError.api w.treeResponse.status)) ∧
    (∀ ri, (getGitHubFiles env w).1 = Except.error (GitHubError.rateLimit ri) ↔
      (parseRateLimitHeaders w.treeResponse.headers = some ri ∧
        ri.remaining = some 0)) := by
  rw [getGitHubFiles_fail_eq env w ho hr hok]
  refine ⟨?_, ?_, ?_⟩
  · intro ri hparse
    constructor
    · intro hz; simp [hparse, hz]
    · intro hz; simp [hparse, hz]
  · intro hparse
    simp [hparse]
  · intro ri
    constructor
    · intro heq
      cases hp : parseRateLimitHeaders w.treeResponse.headers with
      | none => simp [hp] at heq
      | some ri2 =>
        by_cases hz : ri2.remaining = some 0
        · simp [hp, hz] at heq
          cases heq
          exact ⟨rfl, hz⟩
        · simp [hp, hz] at heq
    · rintro ⟨hparse, hz⟩
      simp [hparse, hz]

/-- Witness for C10: a 500 response without rate-limit headers raises the
generic API error carrying status 500. -/
theorem c10_nonsuccess_error_taxonomy_witness :
    (getGitHubFiles envProd w500bare).1 = Except.error (GitHubError.api 500) :=
  (c10_nonsuccess_error_taxonomy envProd w500bare rfl rfl rfl).2.1 (by decide)

/-! ## Claim C3 -/

/-- C3: for every production configuration in which the owner or the
repository name is absent, remote acquisition raises the
configuration-missing error and the list of issued HTTP requests is
empty. -/
theorem c3_config_missing_before_request (env : Env) (w : GitHubWorld)
    (_hmode : env.NODE_ENV = Mode.production)
    (hmiss : env.GITHUB_OWNER = none ∨ env.GITHUB_REPO = none) :
    (getGitHubFiles env w).1 = Except.error GitHubError.configMissing ∧
    (getGitHubFiles env w).2.2 = [] := by
  have hcond : (jsFalsy env.GITHUB_OWNER || jsFalsy env.GITHUB_REPO) = true := by
    rcases hmiss with h | h <;> simp [jsFalsy, h]
  constructor <;> simp [getGitHubFiles, hcond]

/-- Witness for C3: a production configuration with no owner yields the
configuration-missing error and issues no request. -/
theorem c3_config_missing_before_request_witness :
    (getGitHubFiles { envProd with GITHUB_OWNER := none } w500bare).1 =
      Except.error GitHubError.configMissing ∧
    (getGitHubFiles { envProd with GITHUB_OWNER := none } w500bare).2.2 = [] :=
  c3_config_missing_before_request { envProd with GITHUB_OWNER := none }
    w500bare rfl (Or.inl rfl)

/-! ## Claim C8 -/

/-- C8: the dispatcher takes the local path exactly for development mode
and the remote path exactly for production mode; in particular the remote
acquisition is never invoked in development mode. -/
theorem c8_mode_dispatch (env : Env) (lw : LocalWorld) (gw : GitHubWorld) :
    ((getFiles env lw gw).2 = AcqPath.localPath ↔
      env.NODE_ENV = Mode.development) ∧
    ((getFiles env lw gw).2 = AcqPath.remotePath ↔
      env.NODE_ENV = Mode.production) := by
  cases henv : env.NODE_ENV <;> simp [getFiles, henv]

/-! ## Claim C6 -/

/-- C6: when any of the four rate-limit header fields is absent, parsing
yields no snapshot, the logger reports that no rate-limit information is
available, and (parsing and logging being total functions) acquisition
continues: on a successful tree response the result is still a success
and the report is in the log. -/
theorem c6_missing_header_nonfatal (h : RateHeaders)
    (hmiss : h.limit = none ∨ h.remaining = none ∨ h.reset = none ∨
      h.used = none) :
    parseRateLimitHeaders h = none ∧
    logRateLimitInfo (parseRateLimitHeaders h) =
      ["No rate limit information available"] ∧
    ∀ (env : Env) (w : GitHubWorld), jsFalsy env.GITHUB_OWNER = false →
      jsFalsy env.GITHUB_REPO = false → w.treeResponse.headers = h →
      w.treeResponse.ok = true →
      (∃ vfs, (getGitHubFiles env w).1 = Except.ok vfs) ∧
      "No rate limit information available" ∈ (getGitHubFiles env w).2.1 := by
  have hp : parseRateLimitHeaders h = none := by
    rcases hmiss with h1 | h1 | h1 | h1 <;>
      simp [parseRateLimitHeaders, jsFalsy, h1]
  refine ⟨hp, by simp [hp, logRateLimitInfo], ?_⟩
  intro env w ho hr hh hok
  rw [getGitHubFiles_ok_eq env w ho hr hok]
  refine ⟨⟨_, rfl⟩, ?_⟩
  rw [hh, hp]
  exact List.mem_append_left _ (List.mem_singleton.mpr rfl)

/-- Witness for C6: headers with the remaining field absent parse to no
snapshot, the logger reports no information, and a successful acquisition
still succeeds with the report in its log. -/
theorem c6_missing_header_nonfatal_witness :
    parseRateLimitHeaders
      { limit := some "60", remaining := none, reset := some "1700000000",
        used := some "1" } = none ∧
    logRateLimitInfo (parseRateLimitHeaders
      { limit := some "60", remaining := none, reset := some "1700000000",
        used := some "1" }) = ["No rate limit information available"] ∧
    ∀ (env : Env) (w : GitHubWorld), jsFalsy env.GITHUB_OWNER = false →
      jsFalsy env.GITHUB_REPO = false →
      w.treeResponse.headers =
        { limit := some "60", remaining := none, reset := some "1700000000",
          used := some "1" } →
      w.treeResponse.ok = true →
      (∃ vfs, (getGitHubFiles env w).1 = Except.ok vfs) ∧
      "No rate limit information available" ∈ (getGitHubFiles env w).2.1 :=
  c6_missing_header_nonfatal
    { limit := some "60", remaining := none, reset := some "1700000000",
      used := some "1" }
    (Or.inr (Or.inl rfl))

/-! ## Claim C4 -/

/-- A blob entry under the content path, used by witnesses. -/
def itemMd : GitHubTreeItem :=
  { path := "content/docs/a.md", mode := "100644", type := GitObjectType.blob,
    sha := "s1", size := some 10, url := "u1" }

/-- A blob entry outside the content path, used by witnesses. -/
def itemOutside : GitHubTreeItem :=
  { path := "README.md", mode := "100644", type := GitObjectType.blob,
    sha := "s2", size := some 5, url := "u2" }

/-- A non-blob entry under the content path, used by witnesses. -/
def itemDir : GitHubTreeItem :=
  { path := "content/docs/sub", mode := "040000", type := GitObjectType.tree,
    sha := "s3", size := none, url := "u3" }

/-- C4: the set of entries for which a content fetch is attempted is
exactly the blob entries whose path starts with the content path — other
blobs and non-blob entries are ignored — it is permutation-invariant in
the listing order, and on a successful run the issued requests are the
tree request followed by one raw request per attempted entry. -/
theorem c4_tree_filter_attempts (env : Env)
    (tree tree2 : List GitHubTreeItem) (hperm : tree.Perm tree2) :
    (contentFilesOf env tree).Perm (contentFilesOf env tree2) ∧
    (∀ i, i ∈ contentFilesOf env tree ↔
      (i ∈ tree ∧ i.type = GitObjectType.blob ∧
        jsStartsWith i.path env.GITHUB_CONTENT_PATH = true)) ∧
    (∀ (w : GitHubWorld), jsFalsy env.GITHUB_OWNER = false →
      jsFalsy env.GITHUB_REPO = false → w.treeResponse.ok = true →
      w.treeResponse.tree = tree →
      (getGitHubFiles env w).2.2 =
        treeUrl env ::
          (contentFilesOf env tree).map (fun f => rawUrl env f.path)) := by
  refine ⟨hperm.filter _, ?_, ?_⟩
  · intro i
    simp [contentFilesOf, List.mem_filter, and_assoc]
  · intro w ho hr hok htree
    rw [getGitHubFiles_ok_eq env w ho hr hok, htree]

/-- Witness for C4: a listing with one blob under the content path, one
blob outside it and one directory under it attempts exactly the one
matching blob, in either listing order. -/
theorem c4_tree_filter_attempts_witness :
    (contentFilesOf envProd [itemMd, itemOutside, itemDir]).Perm
      (contentFilesOf envProd [itemDir, itemOutside, itemMd]) ∧
    (∀ i, i ∈ contentFilesOf envProd [itemMd, itemOutside, itemDir] ↔
      (i ∈ [itemMd, itemOutside, itemDir] ∧ i.type = GitObjectType.blob ∧
        jsStartsWith i.path envProd.GITHUB_CONTENT_PATH = true)) ∧
    (∀ (w : GitHubWorld), jsFalsy envProd.GITHUB_OWNER = false →
      jsFalsy envProd.GITHUB_REPO = false → w.treeResponse.ok = true →
      w.treeResponse.tree = [itemMd, itemOutside, itemDir] →
      (getGitHubFiles envProd w).2.2 =
        treeUrl envProd ::
          (contentFilesOf envProd [itemMd, itemOutside, itemDir]).map
            (fun f => rawUrl envProd f.path)) :=
  c4_tree_filter_attempts envProd [itemMd, itemOutside, itemDir]
    [itemDir, itemOutside, itemMd] (by decide)

/-! ## Per-file classification lemmas -/

/-- A fetched markdown file produces exactly the page virtual file whose
data is the front-matter with the body set under the content key. -/
theorem githubFileStep_md (env : Env) (w : GitHubWorld)
    (file : GitHubTreeItem) (hfo : w.fileOk file.path = true)
    (hext : extname file.path = ".md" ∨ extname file.path = ".mdx") :
    githubFileStep env w file =
      (Except.ok (some {
        type := VFileType.page
        path := relativePath env.GITHUB_CONTENT_PATH file.path
        data := Value.obj (setKey (w.matterData (w.fileContent file.path))
          "content" (Value.str (w.matterContent (w.fileContent file.path)))) }),
        []) := by
  rcases hext with h | h <;> simp [githubFileStep, hfo, h]

/-- A globbed markdown file produces exactly the page virtual file whose
data is the front-matter with the body set under the content key. -/
theorem localEntry_md (w : LocalWorld) (f c : String)
    (hext : extname f = ".md" ∨ extname f = ".mdx") :
    localEntry w f c =
      Except.ok [{
        type := VFileType.page
        path := relativePath (pathJoin w.cwd "content/docs") (pathJoin w.cwd f)
        data := Value.obj (setKey (w.matterData c) "content"
          (Value.str (w.matterContent c))) }] := by
  rcases hext with h | h <;> simp [localEntry, h]

/-- Membership in the aggregated local result: a virtual file produced by
one globbed entry is in the final list whenever the enumeration
succeeds. -/
theorem mem_getLocalFilesAux (w : LocalWorld) (l : List (String × String))
    (f c : String) (hfc : (f, c) ∈ l) (vf : VirtualFile)
    (vs : List VirtualFile) (hvf : localEntry w f c = Except.ok vs)
    (hmem : vf ∈ vs) :
    ∀ vfs, getLocalFilesAux w l = Except.ok vfs → vf ∈ vfs := by
  induction l with
  | nil => cases hfc
  | cons hd tl ih =>
    intro vfs hvfs
    obtain ⟨hf, hc⟩ := hd
    rw [List.mem_cons] at hfc
    cases hE : localEntry w hf hc with
    | error e => simp [getLocalFilesAux, hE] at hvfs
    | ok vs0 =>
      cases hT : getLocalFilesAux w tl with
      | error e => simp [getLocalFilesAux, hE, hT] at hvfs
      | ok tail =>
        have hcat : vs0 ++ tail = vfs := by
          simpa [getLocalFilesAux, hE, hT] using hvfs
        rcases hfc with heq | htl
        · obtain ⟨rfl, rfl⟩ : f = hf ∧ c = hc := by
            simpa [Prod.ext_iff] using heq
          rw [hE] at hvf
          cases hvf
          rw [← hcat]
          exact List.mem_append_left _ hmem
        · rw [← hcat]
          exact List.mem_append_right _ (ih htl tail hT)

/-- Membership in the remote result list: a content file whose settled
step carries a virtual file contributes it to the aggregate. -/
theorem mem_github_result (env : Env) (w : GitHubWorld)
    (file : GitHubTreeItem)
    (hf : file ∈ contentFilesOf env w.treeResponse.tree) (vf : VirtualFile)
    (hstep : settledValue (githubFileStep env w file) = some vf) :
    vf ∈ ((contentFilesOf env w.treeResponse.tree).map
      (githubFileStep env w)).filterMap settledValue :=
  List.mem_filterMap.mpr
    ⟨githubFileStep env w file, List.mem_map_of_mem _ hf, hstep⟩

/-! ## Claim C5 -/

/-- C5: in both acquisitions, every `.md`/`.mdx` file produces a page
virtual file whose data is the parsed front-matter with the body string
set under the content key, and that file is in the final virtual file
list (for the remote acquisition, provided its fetch succeeded). -/
theorem c5_markdown_page_data :
    (∀ (lw : LocalWorld) (f c : String), (f, c) ∈ lw.files →
      (extname f = ".md" ∨ extname f = ".mdx") →
      ∀ vfs, getLocalFiles lw = Except.ok vfs →
        ({ type := VFileType.page
           path := relativePath (pathJoin lw.cwd "content/docs")
             (pathJoin lw.cwd f)
           data := Value.obj (setKey (lw.matterData c) "content"
             (Value.str (lw.matterContent c))) } : VirtualFile) ∈ vfs) ∧
    (∀ (env : Env) (w : GitHubWorld), jsFalsy env.GITHUB_OWNER = false →
      jsFalsy env.GITHUB_REPO = false → w.treeResponse.ok = true →
      ∀ file ∈ contentFilesOf env w.treeResponse.tree,
        w.fileOk file.path = true →
        (extname file.path = ".md" ∨ extname file.path = ".mdx") →
        ∀ vfs log reqs, getGitHubFiles env w = (Except.ok vfs, log, reqs) →
          ({ type := VFileType.page
             path := relativePath env.GITHUB_CONTENT_PATH file.path
             data := Value.obj (setKey
               (w.matterData (w.fileContent file.path)) "content"
               (Value.str (w.matterContent (w.fileContent file.path)))) } :
            VirtualFile) ∈ vfs) := by
  constructor
  · intro lw f c hfc hext vfs hvfs
    exact mem_getLocalFilesAux lw lw.files f c hfc _ _
      (localEntry_md lw f c hext) (List.mem_singleton.mpr rfl) vfs hvfs
  · intro env w ho hr hok file hf hfo hext vfs log reqs heq
    rw [getGitHubFiles_ok_eq env w ho hr hok] at heq
    obtain ⟨h1, -, -⟩ : Except.ok (((contentFilesOf env w.treeResponse.tree).map
        (githubFileStep env w)).filterMap settledValue) =
          (Except.ok vfs : Except GitHubError (List VirtualFile)) ∧
        True ∧ True := by
      refine ⟨?_, trivial, trivial⟩
      exact congrArg Prod.fst heq
    cases h1
    exact mem_github_result env w file hf _
      (by rw [githubFileStep_md env w file hfo hext]; rfl)

/-! ## Concrete worlds for the C5 witness -/

/-- A local world with one markdown file carrying front-matter
title A and body hello. -/
def lwTitleA : LocalWorld :=
  { files := [("/content/docs/a.md", "raw")]
    cwd := "/app"
    matterData := fun _ => [("title", Value.str "A")]
    matterContent := fun _ => "hello"
    jsonParse := fun _ => none }

/-- A remote world listing one markdown file whose front-matter is
title A and body hello. -/
def gwTitleA : GitHubWorld :=
  { treeResponse :=
      { ok := true, status := 200, statusText := "OK",
        headers := { limit := none, remaining := none, reset := none,
                     used := none },
        tree := [itemMd] }
    fileOk := fun _ => true
    fileContent := fun _ => "raw"
    matterData := fun _ => [("title", Value.str "A")]
    matterContent := fun _ => "hello"
    jsonParse := fun _ => none }

/-- Witness for C5, realising the concrete instance of the claim: the
markdown file with front-matter title A and body hello yields a page
whose data is the object with title A and content hello, in both
acquisitions. -/
theorem c5_markdown_page_data_witness :
    (∀ vfs, getLocalFiles lwTitleA = Except.ok vfs →
      ({ type := VFileType.page, path := "a.md",
         data := Value.obj [("title", Value.str "A"),
           ("content", Value.str "hello")] } : VirtualFile) ∈ vfs) ∧
    (∀ vfs log reqs, getGitHubFiles envProd gwTitleA = (Except.ok vfs, log, reqs) →
      ({ type := VFileType.page, path := "a.md",
         data := Value.obj [("title", Value.str "A"),
           ("content", Value.str "hello")] } : VirtualFile) ∈ vfs) :=
  ⟨fun vfs hvfs =>
      (c5_markdown_page_data).1 lwTitleA "/content/docs/a.md" "raw"
        (List.mem_singleton.mpr rfl) (Or.inl rfl) vfs hvfs,
    fun vfs log reqs heq =>
      (c5_markdown_page_data).2 envProd gwTitleA rfl rfl rfl itemMd
        (by decide) rfl (Or.inl rfl) vfs log reqs heq⟩

/-! ## Claim C9 -/

/-- With a head field whose key differs, the update recurses past it. -/
theorem setKey_cons_ne (hd : String × Value) (tl : List (String × Value))
    (k : String) (v : Value) (hk : ¬ hd.1 = k) :
    setKey (hd :: tl) k v = hd :: setKey tl k v := by
  by_cases h : tl.any (fun p => decide (p.1 = k)) = true <;>
    simp [setKey, hk, h]

/-- After the update, the content key holds exactly the supplied value:
a same-named field of the original object is overridden. -/
theorem objGet_setKey (o : List (String × Value)) (k : String) (v : Value) :
    objGet (setKey o k v) k = some v := by
  induction o with
  | nil => simp [setKey, objGet]
  | cons hd tl ih =>
    by_cases hk : hd.1 = k
    · have hany : ((hd :: tl).any (fun p => p.1 = k)) = true := by
        simp [List.any_cons, hk]
      simp [setKey, hany, objGet, List.find?_cons, hk]
    · rw [setKey_cons_ne hd tl k v hk]
      simpa [objGet, List.find?_cons, hk] using ih

/-- C9: for a markdown file whose front-matter itself contains a field
named content, the produced page maps content to the body string — the
body always overrides the front-matter field — in both the local and the
remote per-file classification. -/
theorem c9_content_key_override :
    (∀ (lw : LocalWorld) (f c : String),
      (extname f = ".md" ∨ extname f = ".mdx") →
      ((lw.matterData c).any (fun p => p.1 = "content")) = true →
      ∀ vf, localEntry lw f c = Except.ok [vf] →
        vGet vf.data "content" = some (Value.str (lw.matterContent c)) ∧
        ∀ v, ("content", v) ∈ lw.matterData c →
          v ≠ Value.str (lw.matterContent c) →
          vGet vf.data "content" ≠ some v) ∧
    (∀ (env : Env) (w : GitHubWorld) (file : GitHubTreeItem),
      w.fileOk file.path = true →
      (extname file.path = ".md" ∨ extname file.path = ".mdx") →
      ((w.matterData (w.fileContent file.path)).any
        (fun p => p.1 = "content")) = true →
      ∀ vf logs, githubFileStep env w file = (Except.ok (some vf), logs) →
        vGet vf.data "content" =
          some (Value.str (w.matterContent (w.fileContent file.path)))) := by
  constructor
  · intro lw f c hext _hkey vf hvf
    rw [localEntry_md lw f c hext] at hvf
    cases hvf
    constructor
    · exact objGet_setKey _ _ _
    · intro v _hv hne heq
      have h2 : objGet (setKey (lw.matterData c) "content"
          (Value.str (lw.matterContent c))) "content" = some v := heq
      rw [objGet_setKey] at h2
      cases h2
      exact hne rfl
  · intro env w file hfo hext _hkey vf logs hvf
    rw [githubFileStep_md env w file hfo hext] at hvf
    cases hvf
    exact objGet_setKey _ _ _

/-- A local world whose markdown front-matter already contains a content
field, used by the C9 witness. -/
def lwContentClash : LocalWorld :=
  { files := [("/content/docs/a.md", "raw")]
    cwd := "/app"
    matterData := fun _ => [("content", Value.str "FROM-FRONT-MATTER"),
      ("title", Value.str "A")]
    matterContent := fun _ => "hello"
    jsonParse := fun _ => none }

/-- A remote world whose markdown front-matter already contains a content
field, used by the C9 witness. -/
def gwContentClash : GitHubWorld :=
  { treeResponse :=
      { ok := true, status := 200, statusText := "OK",
        headers := { limit := none, remaining := none, reset := none,
                     used := none },
        tree := [itemMd] }
    fileOk := fun _ => true
    fileContent := fun _ => "raw"
    matterData := fun _ => [("content", Value.str "FROM-FRONT-MATTER"),
      ("title", Value.str "A")]
    matterContent := fun _ => "hello"
    jsonParse := fun _ => none }

/-- Witness for C9: with a front-matter content field present, the page
data maps content to the body hello, not to the front-matter value. -/
theorem c9_content_key_override_witness :
    (∀ vf, localEntry lwContentClash "/content/docs/a.md" "raw" =
        Except.ok [vf] →
      vGet vf.data "content" = some (Value.str "hello") ∧
      ∀ v, ("content", v) ∈ lwContentClash.matterData "raw" →
        v ≠ Value.str "hello" →
        vGet vf.data "content" ≠ some v) ∧
    (∀ vf logs, githubFileStep envProd gwContentClash itemMd =
        (Except.ok (some vf), logs) →
      vGet vf.data "content" = some (Value.str "hello")) :=
  ⟨fun vf hvf =>
      (c9_content_key_override).1 lwContentClash "/content/docs/a.md" "raw"
        (Or.inl rfl) (by decide) vf hvf,
    fun vf logs hvf =>
      (c9_content_key_override).2 envProd gwContentClash itemMd rfl
        (Or.inl rfl) (by decide) vf logs hvf⟩

/-! ## Claim C2 -/

/-- A failed per-file fetch settles as a fulfilled null and logs the
failure. -/
theorem githubFileStep_fail (env : Env) (w : GitHubWorld)
    (file : GitHubTreeItem) (hfo : w.fileOk file.path = false) :
    githubFileStep env w file =
      (Except.ok none, ["Failed to fetch file: " ++ file.path]) := by
  simp [githubFileStep, hfo]

/-- A fetched JSON file whose content parses produces the meta virtual
file carrying the parsed data. -/
theorem githubFileStep_json (env : Env) (w : GitHubWorld)
    (file : GitHubTreeItem) (hfo : w.fileOk file.path = true)
    (hext : extname file.path = ".json") (v : Value)
    (hparse : w.jsonParse (w.fileContent file.path) = some v) :
    githubFileStep env w file =
      (Except.ok (some {
        type := VFileType.meta
        path := relativePath env.GITHUB_CONTENT_PATH file.path
        data := v }), []) := by
  simp [githubFileStep, hfo, hext, hparse]

/-- Counting the settled results: when every successfully fetched entry
classifies to a virtual file, the aggregate has exactly the attempted
entries minus the failed fetches. -/
theorem settled_count (env : Env) (w : GitHubWorld) :
    ∀ l : List GitHubTreeItem,
      (∀ f ∈ l, w.fileOk f.path = true →
        (extname f.path = ".md" ∨ extname f.path = ".mdx" ∨
          (extname f.path = ".json" ∧
            (w.jsonParse (w.fileContent f.path)).isSome = true))) →
      ((l.map (githubFileStep env w)).filterMap settledValue).length =
        l.length - (l.filter (fun f => ! w.fileOk f.path)).length := by
  intro l
  induction l with
  | nil => intro _; rfl
  | cons f tl ih =>
    intro hclass
    have htl := ih (fun g hg => hclass g (List.mem_cons_of_mem f hg))
    cases hfo : w.fileOk f.path with
    | false =>
      have hstep := githubFileStep_fail env w f hfo
      have hsv : settledValue (githubFileStep env w f) = none := by
        rw [hstep]; rfl
      simp only [List.map_cons, List.filterMap_cons, hsv, List.filter_cons,
        hfo, Bool.not_false, if_pos, List.length_cons, Nat.succ_sub_succ]
      exact htl
    | true =>
      have hsome : ∃ vf, settledValue (githubFileStep env w f) = some vf := by
        rcases hclass f (List.mem_cons_self f tl) hfo with h | h | ⟨h, hs⟩
        · exact ⟨_, by rw [githubFileStep_md env w f hfo (Or.inl h)]; rfl⟩
        · exact ⟨_, by rw [githubFileStep_md env w f hfo (Or.inr h)]; rfl⟩
        · obtain ⟨v, hv⟩ := Option.isSome_iff_exists.mp hs
          exact ⟨_, by rw [githubFileStep_json env w f hfo h v hv]; rfl⟩
      obtain ⟨vf, hsv⟩ := hsome
      have hle : ((tl.filter (fun f => ! w.fileOk f.path)).length ≤ tl.length) :=
        List.length_filter_le _ _
      simp only [List.map_cons, List.filterMap_cons, hsv, List.filter_cons,
        hfo, Bool.not_true, List.length_cons]
      rw [if_neg (by simp)]
      rw [htl, Nat.succ_sub hle]

/-- C2 (amended): when some per-file fetches fail, the overall remote
acquisition still succeeds, each failing file is logged and excluded
without affecting the other fetches, and — provided every successfully
fetched file is one the classifier keeps (markdown, or JSON that
parses) — the result has exactly (attempted − failed) entries. -/
theorem c2_per_file_failure_isolation (env : Env) (w : GitHubWorld)
    (ho : jsFalsy env.GITHUB_OWNER = false)
    (hr : jsFalsy env.GITHUB_REPO = false)
    (hok : w.treeResponse.ok = true)
    (hclass : ∀ f ∈ contentFilesOf env w.treeResponse.tree,
      w.fileOk f.path = true →
      (extname f.path = ".md" ∨ extname f.path = ".mdx" ∨
        (extname f.path = ".json" ∧
          (w.jsonParse (w.fileContent f.path)).isSome = true))) :
    (∃ vfs, (getGitHubFiles env w).1 = Except.ok vfs) ∧
    (∀ f ∈ contentFilesOf env w.treeResponse.tree,
      w.fileOk f.path = false →
      ("Failed to fetch file: " ++ f.path) ∈ (getGitHubFiles env w).2.1) ∧
    (∀ vfs, (getGitHubFiles env w).1 = Except.ok vfs →
      vfs.length = (contentFilesOf env w.treeResponse.tree).length -
        ((contentFilesOf env w.treeResponse.tree).filter
          (fun f => ! w.fileOk f.path)).length) := by
  have hrun := getGitHubFiles_ok_eq env w ho hr hok
  refine ⟨⟨_, by rw [hrun]⟩, ?_, ?_⟩
  · intro f hf hfo
    rw [hrun]
    refine List.mem_append_right _ (List.mem_flatten.mpr
      ⟨["Failed to fetch file: " ++ f.path], ?_, List.mem_singleton.mpr rfl⟩)
    rw [List.map_map]
    exact List.mem_map.mpr ⟨f, hf,
      by rw [Function.comp_apply, githubFileStep_fail env w f hfo]⟩
  · intro vfs hv
    rw [hrun] at hv
    have : ((contentFilesOf env w.treeResponse.tree).map
        (githubFileStep env w)).filterMap settledValue = vfs := by
      simpa using hv
    rw [← this]
    exact settled_count env w _ hclass

/-- A second markdown blob under the content path, used by C2 worlds. -/
def itemMd2 : GitHubTreeItem :=
  { path := "content/docs/b.md", mode := "100644", type := GitObjectType.blob,
    sha := "s5", size := some 7, url := "u5" }

/-- A PNG blob under the content path, used by the C2 counterexample. -/
def itemPng : GitHubTreeItem :=
  { path := "content/docs/a.png", mode := "100644", type := GitObjectType.blob,
    sha := "s4", size := some 3, url := "u4" }

/-- A world where the PNG fetch succeeds and the markdown fetch fails:
two attempted files, one failed fetch, but an empty result. -/
def w2cex : GitHubWorld :=
  { treeResponse :=
      { ok := true, status := 200, statusText := "OK",
        headers := { limit := none, remaining := none, reset := none,
                     used := none },
        tree := [itemPng, itemMd2] }
    fileOk := fun p => p == "content/docs/a.png"
    fileContent := fun _ => "x"
    matterData := fun _ => []
    matterContent := fun _ => ""
    jsonParse := fun _ => none }

/-- Counterexample to C2 as stated: two fetches are attempted and one
fails, yet the result has zero entries, not 2 − 1 = 1 — the successfully
fetched PNG is dropped by extension classification. -/
theorem c2_counterexample :
    (contentFilesOf envProd w2cex.treeResponse.tree).length = 2 ∧
    ((contentFilesOf envProd w2cex.treeResponse.tree).filter
      (fun f => ! w2cex.fileOk f.path)).length = 1 ∧
    (getGitHubFiles envProd w2cex).1 = Except.ok [] :=
  ⟨rfl, rfl, rfl⟩

/-- A world with two markdown files of which one fails to fetch, used by
the C2 witness. -/
def w2wit : GitHubWorld :=
  { treeResponse :=
      { ok := true, status := 200, statusText := "OK",
        headers := { limit := none, remaining := none, reset := none,
                     used := none },
        tree := [itemMd, itemMd2] }
    fileOk := fun p => p == "content/docs/a.md"
    fileContent := fun _ => "x"
    matterData := fun _ => []
    matterContent := fun _ => ""
    jsonParse := fun _ => none }

/-- Witness for the amended C2: with two attempted markdown files and one
failed fetch, acquisition succeeds, the failure is logged, and the result
has 2 − 1 entries. -/
theorem c2_per_file_failure_isolation_witness :
    (∃ vfs, (getGitHubFiles envProd w2wit).1 = Except.ok vfs) ∧
    (∀ f ∈ contentFilesOf envProd w2wit.treeResponse.tree,
      w2wit.fileOk f.path = false →
      ("Failed to fetch file: " ++ f.path) ∈ (getGitHubFiles envProd w2wit).2.1) ∧
    (∀ vfs, (getGitHubFiles envProd w2wit).1 = Except.ok vfs →
      vfs.length = (contentFilesOf envProd w2wit.treeResponse.tree).length -
        ((contentFilesOf envProd w2wit.treeResponse.tree).filter
          (fun f => ! w2wit.fileOk f.path)).length) :=
  c2_per_file_failure_isolation envProd w2wit rfl rfl rfl (by decide)

/-! ## Claim C7 -/

/-- A production environment with owner and repository set but the
content path variable absent. -/
def rawProdNoPath : RawEnv :=
  { NODE_ENV := some "production", GITHUB_OWNER := some "octo",
    GITHUB_REPO := some "docs", GITHUB_CONTENT_PATH := none,
    GITHUB_CONTENT_BRANCH := none, GITHUB_TOKEN := some "tok" }

/-- Counterexample to C7 as stated: in production mode with the content
path variable absent, configuration resolution does not fail — the zod
default fills in content/docs and validation succeeds. -/
theorem c7_missing_content_path_counterexample :
    (validateEnv rawProdNoPath).1 = Except.ok
      { NODE_ENV := Mode.production, GITHUB_OWNER := some "octo",
        GITHUB_REPO := some "docs", GITHUB_CONTENT_PATH := "content/docs",
        GITHUB_CONTENT_BRANCH := "main", GITHUB_TOKEN := some "tok" } := rfl

/-- Invalid mode constraint: the mode variable is absent or not one of
the two enum values. -/
def modeInvalid (r : RawEnv) : Bool :=
  match r.NODE_ENV with
  | none => true
  | some v => ! modeValid v

/-- Production mode with the owner variable absent. -/
def prodMissingOwner (r : RawEnv) : Bool :=
  r.NODE_ENV == some "production" && r.GITHUB_OWNER == none

/-- Production mode with the repository variable absent. -/
def prodMissingRepo (r : RawEnv) : Bool :=
  r.NODE_ENV == some "production" && r.GITHUB_REPO == none

/-- Production mode with the content path variable set to the empty
string (the only way the content path constraint can fire, since an
absent variable receives the default). -/
def prodEmptyPath (r : RawEnv) : Bool :=
  r.NODE_ENV == some "production" && r.GITHUB_CONTENT_PATH == some ""

/-- On any nonempty issue list, validation fails with the aggregated
message and logs that message after the warnings. -/
theorem validateEnv_error (r : RawEnv) (h : envIssues r ≠ []) :
    validateEnv r =
      (Except.error (humanReadableZodError (envIssues r)),
        refineWarnings r ++ [humanReadableZodError (envIssues r)]) := by
  have hne : (envIssues r).isEmpty = false := by
    cases hi : envIssues r with
    | nil => exact absurd hi h
    | cons a l => rfl
  simp [validateEnv, hne]

/-- C7 (amended): for every environment violating at least one of the
constraints the schema enforces — invalid mode, production with missing
owner or repository, or production with an empty content path (an absent
content path receives the default and is not a violation) — resolution
fails with the single aggregated message over the full issue list, the
message is written to the log, and each violated constraint contributes
its issue to that list (not just the first). -/
theorem c7_aggregated_validation_errors (r : RawEnv)
    (hviol : (modeInvalid r || prodMissingOwner r || prodMissingRepo r ||
      prodEmptyPath r) = true) :
    (validateEnv r).1 =
      Except.error (humanReadableZodError (envIssues r)) ∧
    (validateEnv r).2 =
      refineWarnings r ++ [humanReadableZodError (envIssues r)] ∧
    humanReadableZodError (envIssues r) =
      String.intercalate "\n"
        ((envIssues r).map (fun i => i.path ++ ": " ++ i.message)) ∧
    (modeInvalid r = true → ∃ i ∈ envIssues r, i.path = "NODE_ENV") ∧
    (prodMissingOwner r = true → ownerIssue ∈ envIssues r) ∧
    (prodMissingRepo r = true → repoIssue ∈ envIssues r) ∧
    (prodEmptyPath r = true → contentPathIssue ∈ envIssues r) := by
  have hmode : modeInvalid r = true → ∃ i ∈ envIssues r, i.path = "NODE_ENV" := by
    intro hm
    unfold modeInvalid at hm
    cases hnv : r.NODE_ENV with
    | none =>
      exact ⟨{ path := "NODE_ENV", message := "Required" },
        by simp [envIssues, baseIssues, hnv], rfl⟩
    | some v =>
      rw [hnv] at hm
      simp only [Bool.not_eq_true'] at hm
      refine ⟨{ path := "NODE_ENV", message :=
        "Invalid enum value. Expected development | production, received " ++ v },
        ?_, rfl⟩
      simp [envIssues, baseIssues, hnv, hm]
  have hprodBase : r.NODE_ENV = some "production" → baseIssues r = [] := by
    intro h1
    simp [baseIssues, h1, modeValid]
  have howner : prodMissingOwner r = true → ownerIssue ∈ envIssues r := by
    intro hm
    obtain ⟨h1, h2⟩ := by simpa [prodMissingOwner] using hm
    simp [envIssues, hprodBase h1, refineIssues, h1, jsFalsy, h2]
  have hrepo : prodMissingRepo r = true → repoIssue ∈ envIssues r := by
    intro hm
    obtain ⟨h1, h2⟩ := by simpa [prodMissingRepo] using hm
    simp [envIssues, hprodBase h1, refineIssues, h1, jsFalsy, h2]
  have hpath : prodEmptyPath r = true → contentPathIssue ∈ envIssues r := by
    intro hm
    obtain ⟨h1, h2⟩ := by simpa [prodEmptyPath] using hm
    simp [envIssues, hprodBase h1, refineIssues, h1, contentPathValue, h2]
    exact Or.inr (Or.inr (by decide))
  have hne : envIssues r ≠ [] := by
    rcases (by simpa [or_assoc] using hviol :
        modeInvalid r = true ∨ prodMissingOwner r = true ∨
          prodMissingRepo r = true ∨ prodEmptyPath r = true) with
      hm | hm | hm | hm
    · obtain ⟨i, hi, -⟩ := hmode hm
      exact List.ne_nil_of_mem hi
    · exact List.ne_nil_of_mem (howner hm)
    · exact List.ne_nil_of_mem (hrepo hm)
    · exact List.ne_nil_of_mem (hpath hm)
  have herr := validateEnv_error r hne
  exact ⟨by rw [herr], by rw [herr], rfl, hmode, howner, hrepo, hpath⟩

/-- A production environment missing both owner and repository, used by
the C7 witness. -/
def rawMissingBoth : RawEnv :=
  { NODE_ENV := some "production", GITHUB_OWNER := none, GITHUB_REPO := none,
    GITHUB_CONTENT_PATH := none, GITHUB_CONTENT_BRANCH := none,
    GITHUB_TOKEN := none }

/-- Witness for the amended C7: with owner and repository both missing in
production, validation fails with the aggregated message, the message is
logged, and both the owner issue and the repository issue are in the
issue list. -/
theorem c7_aggregated_validation_errors_witness :
    (validateEnv rawMissingBoth).1 =
      Except.error (humanReadableZodError (envIssues rawMissingBoth)) ∧
    (validateEnv rawMissingBoth).2 =
      refineWarnings rawMissingBoth ++
        [humanReadableZodError (envIssues rawMissingBoth)] ∧
    humanReadableZodError (envIssues rawMissingBoth) =
      String.intercalate "\n"
        ((envIssues rawMissingBoth).map (fun i => i.path ++ ": " ++ i.message)) ∧
    (modeInvalid rawMissingBoth = true →
      ∃ i ∈ envIssues rawMissingBoth, i.path = "NODE_ENV") ∧
    (prodMissingOwner rawMissingBoth = true →
      ownerIssue ∈ envIssues rawMissingBoth) ∧
    (prodMissingRepo rawMissingBoth = true →
      repoIssue ∈ envIssues rawMissingBoth) ∧
    (prodEmptyPath rawMissingBoth = true →
      contentPathIssue ∈ envIssues rawMissingBoth) :=
  c7_aggregated_validation_errors rawMissingBoth (by decide)

end Fumadocs
